import Mathlib

/-!
# Agentic Sitemap — verification of the specified core

Shallow embedding of the Agentic Sitemap repository (Next.js frontend plus a
FastAPI backend).  The frontend sources (`ScrapeForm.tsx`, `ComparePanel.tsx`,
`page.tsx` with its inlined `ProductCard`, `SitemapViewer.tsx`) and the scrape
proxy route handler are embedded directly from the TypeScript source.  The
Python backend (`main.py`, `scraper.py`, `summarizer.py`, `generator.py`,
`db.py`) is not part of the available sources; the components it implements
(Product Store, Structured Summarizer, Artifact Generator, Comparison Engine)
are modelled from the specification, with each such definition marked
`Modelled from the spec:` in its doc comment.

Machine reals (JS numbers / Python floats) are modelled as rationals `ℚ`;
the properties at stake are order comparisons and clamping, which rationals
represent faithfully.  Timestamps are `Nat` ticks.
-/

namespace AgenticSitemap

/-! ## ProductCard staleness logic (from `src/frontend/src/app/page.tsx`) -/

/-- A JSON scalar as it appears in `product.summary` on the frontend
(`Record<string, string | number>`). -/
inductive JsonVal
  | jstr (s : String)
  | jnum (q : ℚ)
deriving DecidableEq, Repr

/-- The two `summary` fields that `ProductCard`'s staleness logic reads.
`none` models an absent key (JS `undefined`). -/
structure CardSummary where
  confidence : Option JsonVal
  title : Option JsonVal
deriving DecidableEq, Repr

/-- `typeof s.confidence === "number" ? s.confidence : 0.5`
(page.tsx line 255). -/
def cardConfidence : Option JsonVal → ℚ
  | some (.jnum q) => q
  | _ => 1/2

/-- JS truthiness of `s.title as string` as used in `!(s.title as string)`:
`undefined`, the empty string and the number `0` are falsy. -/
def jsTruthy : Option JsonVal → Bool
  | none => false
  | some (.jstr s) => s != ""
  | some (.jnum q) => q != 0

/-- `const isStale = confidence < 0.15 || !(s.title as string)`
(page.tsx line 256).  The card renders the yellow low-confidence warning with
the Re-scrape button exactly when this is true. -/
def isStale (s : CardSummary) : Bool :=
  decide (cardConfidence s.confidence < 15/100) || !(jsTruthy s.title)

/-! ## Scrape proxy route handler (from `src/unnamed/part_002`) -/

/-- `AbortSignal.timeout(120_000)` on the backend fetch: 120000 ms = 120 s. -/
def SCRAPE_PROXY_TIMEOUT_MS : Nat := 120000

/-- Outcome of the proxied `fetch` to the backend: either a reply (any HTTP
status) within the timeout, or a thrown error carrying its `name`
(`"TimeoutError"` when the abort signal fired) and its rendered text. -/
inductive ProxyFetchResult
  | success (status : Nat) (body : String)
  | failure (errName : String) (errText : String)
deriving DecidableEq, Repr

/-- An HTTP response produced by the route handler. -/
structure ProxyResponse where
  status : Nat
  body : String
deriving DecidableEq, Repr

/-- The detail message the handler returns on timeout. -/
def TIMEOUT_DETAIL : String :=
  "Scrape timed out after 2 minutes. The page took too long to load."

/-- The `try`/`catch` logic of the `POST` handler: forward the backend reply
verbatim; on a thrown `TimeoutError` answer 408 with the timeout detail; on
any other error answer 502. -/
def handleProxyFetch : ProxyFetchResult → ProxyResponse
  | .success st body => ⟨st, body⟩
  | .failure errName errText =>
      if errName = "TimeoutError" then ⟨408, TIMEOUT_DETAIL⟩
      else ⟨502, errText⟩

/-- The whole `POST` handler: it issues exactly one backend fetch per request
(attempt 0 of the attempt-indexed capability) and never retries, whatever that
one attempt returned.  The second component counts fetch attempts used. -/
def scrapeProxyPost (backend : Nat → ProxyFetchResult) : ProxyResponse × Nat :=
  (handleProxyFetch (backend 0), 1)

/-! ## Structured Summarizer (modelled from the spec, §4.2) -/

/-- Modelled from the spec: `summary.stock_status` enum of §3
(`backend/summarizer.py` is absent from the sources). -/
inductive StockStatus
  | in_stock
  | out_of_stock
  | unknown
deriving DecidableEq, Repr

/-- Modelled from the spec: `summary.sentiment` enum of §3. -/
inductive Sentiment
  | positive
  | neutral
  | negative
deriving DecidableEq, Repr

/-- Modelled from the spec: the structured `summary` record of §3, with
`confidence` a rational standing for the float in `[0,1]`. -/
structure Summary where
  title : String
  price : String
  stock_status : StockStatus
  sentiment : Sentiment
  why_buy : String
  best_for_intent : String
  cta_url : String
  confidence : ℚ
deriving DecidableEq, Repr

/-- Modelled from the spec: the raw string fields decoded from the LLM's JSON
reply, before enum coercion and confidence scoring.  An absent field decodes
as the empty string. -/
structure LLMFields where
  title : String
  price : String
  stock_status : String
  sentiment : String
  why_buy : String
  best_for_intent : String
  cta_url : String
deriving DecidableEq, Repr

/-- Modelled from the spec: the three ways the LLM step can go (§4.2):
the reply parsed cleanly as schema JSON; parsing needed the fallback salvage
path but recovered fields; or the call itself failed (timeout, transport,
empty body). -/
inductive LLMOutcome
  | parsed (fields : LLMFields)
  | salvaged (fields : LLMFields)
  | noResponse
deriving DecidableEq, Repr

/-- Modelled from the spec: hard failure of summarization happens only when
the LLM call itself failed (§4.2). -/
inductive SummarizationError
  | NoResponse
deriving DecidableEq, Repr

/-- Modelled from the spec: any out-of-enum stock status from the LLM is
coerced to the default `unknown` rather than rejected (§4.2). -/
def coerceStock (s : String) : StockStatus :=
  if s = "in_stock" then .in_stock
  else if s = "out_of_stock" then .out_of_stock
  else .unknown

/-- Modelled from the spec: any out-of-enum sentiment from the LLM is coerced
to the default `neutral` rather than rejected (§4.2). -/
def coerceSentiment (s : String) : Sentiment :=
  if s = "positive" then .positive
  else if s = "negative" then .negative
  else .neutral

/-- Clamp a rational into `[0,1]`. -/
def clamp01 (x : ℚ) : ℚ := max 0 (min 1 x)

/-- Modelled from the spec: the required text fields whose completeness feeds
the confidence baseline (§4.2). -/
def requiredFields (f : LLMFields) : List String :=
  [f.title, f.price, f.why_buy, f.best_for_intent, f.cta_url]

/-- Modelled from the spec: fraction of required fields populated with
non-empty values (§4.2). -/
def completeness (f : LLMFields) : ℚ :=
  (((requiredFields f).filter (fun s => s != "")).length : ℚ) / 5

/-- Modelled from the spec: confidence scoring policy of §4.2 — a baseline of
0.7 scaled by completeness, penalized toward 0 when `title` is absent and when
JSON parsing required the fallback salvage path, clamped so it never exceeds
1.0 nor drops below 0.0. -/
def scoreConfidence (f : LLMFields) (salvaged : Bool) : ℚ :=
  let base : ℚ := (7/10) * completeness f
  let titled : ℚ := if f.title = "" then base / 10 else base
  let penalized : ℚ := if salvaged then titled - 1/5 else titled
  clamp01 penalized

/-- Modelled from the spec: build the strict-schema `Summary` from decoded
LLM fields (§4.2), coercing enums and attaching the confidence score. -/
def buildSummary (f : LLMFields) (salvaged : Bool) : Summary :=
  { title := f.title
    price := f.price
    stock_status := coerceStock f.stock_status
    sentiment := coerceSentiment f.sentiment
    why_buy := f.why_buy
    best_for_intent := f.best_for_intent
    cta_url := f.cta_url
    confidence := scoreConfidence f salvaged }

/-- Modelled from the spec: `summarize(raw_signals) -> Summary |
SummarizationError` (§4.2).  Parsed and salvaged replies both yield a Summary
(salvage only lowers confidence); only a failed LLM call is an error. -/
def summarize : LLMOutcome → Except SummarizationError Summary
  | .parsed f => .ok (buildSummary f false)
  | .salvaged f => .ok (buildSummary f true)
  | .noResponse => .error .NoResponse

/-! ## Comparison Engine (modelled from the spec, §4.5) -/

/-- Modelled from the spec: an LLM invocation's input — the model
configuration, the question text, and the optionally injected product-snapshot
context; only the context differs between the two sides (§4.5). -/
structure Prompt where
  modelConfig : String
  question : String
  context : Option String
deriving DecidableEq, Repr

/-- Modelled from the spec: one side of a comparison — the prompt it answered
plus the answer text and reported token cost (§3, §4.5). -/
structure SideResult where
  prompt : Prompt
  answer : String
  tokens_used : Nat
deriving DecidableEq, Repr

/-- Modelled from the spec: the persisted Comparison record (§3). -/
structure Comparison where
  id : Nat
  question : String
  without_context : SideResult
  with_context : SideResult
  created_at : Nat
deriving DecidableEq, Repr

/-- Modelled from the spec: comparison failures — blank question, or either
individual LLM call failing (§4.5). -/
inductive ComparisonError
  | EmptyQuestion
  | LLMFailure
deriving DecidableEq, Repr

/-- The fixed model configuration used for both sides (README: Groq
llama-3.3-70b-versatile). -/
def MODEL_CONFIG : String := "llama-3.3-70b-versatile"

/-- Whitespace trimming of a question string (the spec's "blank after
trimming" check), written as structural recursion over the characters. -/
def trimmed (s : String) : String :=
  String.mk
    (((s.data.dropWhile Char.isWhitespace).reverse.dropWhile
        Char.isWhitespace).reverse)

/-- Modelled from the spec: what the LLM capability returns for one call. -/
structure LLMReply where
  answer : String
  tokens_used : Nat
deriving DecidableEq, Repr

/-- Modelled from the spec: `compare(question, product_snapshot)` (§4.5).
The question is checked for blankness after trimming before any LLM call; the
two calls then run sequentially on the same question text and model
configuration, differing only in the injected context.  The second component
counts LLM invocations made. -/
def compare (q : String) (snapshotContext : String)
    (llm : Prompt → Option LLMReply) (nextId now : Nat) :
    Except ComparisonError Comparison × Nat :=
  if trimmed q = "" then (.error .EmptyQuestion, 0)
  else
    let p1 : Prompt := ⟨MODEL_CONFIG, q, none⟩
    let p2 : Prompt := ⟨MODEL_CONFIG, q, some snapshotContext⟩
    match llm p1 with
    | none => (.error .LLMFailure, 1)
    | some r1 =>
      match llm p2 with
      | none => (.error .LLMFailure, 2)
      | some r2 =>
        (.ok { id := nextId
               question := q
               without_context := ⟨p1, r1.answer, r1.tokens_used⟩
               with_context := ⟨p2, r2.answer, r2.tokens_used⟩
               created_at := now }, 2)

/-- Modelled from the spec: the one storage write of a successful comparison
(§4.5) — a complete two-sided record is appended to the history, and on any
failure the history is left untouched. -/
def compareAndStore (q : String) (snapshotContext : String)
    (llm : Prompt → Option LLMReply) (nextId now : Nat)
    (history : List Comparison) :
    Except ComparisonError Comparison × Nat × List Comparison :=
  match compare q snapshotContext llm nextId now with
  | (.ok c, n) => (.ok c, n, history ++ [c])
  | (.error e, n) => (.error e, n, history)

/-! ## URL normalization and Product Store (modelled from the spec, §4.3) -/

/-- Modelled from the spec: a parsed URL — scheme, host, path, query
parameters and fragment (§4.3); parsing itself is out of scope. -/
structure UrlParts where
  scheme : String
  host : String
  path : String
  query : List (String × String)
  fragment : Option String
deriving DecidableEq, Repr

/-- Modelled from the spec: the known tracking query parameters stripped
during normalization (§4.3); the names cover the trackers visible in the
repository's demo URLs (gclid, gbraid, _gl, _gs) plus the usual utm family. -/
def TRACKING_PARAMS : List String :=
  ["utm_source", "utm_medium", "utm_campaign", "utm_term", "utm_content",
   "gclid", "gbraid", "wbraid", "fbclid", "_gl", "_gs"]

/-- ASCII lower-casing written as structural recursion over the characters
(the JS and Python lowercasing of URL schemes and hosts). -/
def lowerStr (s : String) : String := String.mk (s.data.map Char.toLower)

/-- Modelled from the spec: URL normalization (§4.3) — strip known tracking
query parameters and the fragment identifier, lower-case scheme and host,
before using the value as the dedup key. -/
def normalizeUrl (u : UrlParts) : UrlParts :=
  { scheme := lowerStr u.scheme
    host := lowerStr u.host
    path := u.path
    query := u.query.filter (fun p => !(TRACKING_PARAMS.contains p.1))
    fragment := none }

/-- A URL extended with extra query parameters and a replaced fragment; with
tracking-only extras this is "the same URL up to tracking decoration". -/
def addTracking (u : UrlParts) (extra : List (String × String))
    (frag : Option String) : UrlParts :=
  { u with query := u.query ++ extra, fragment := frag }

/-- Modelled from the spec: the cleaned text bundle from the Raw Signal
Extractor (§3, §4.1). -/
structure RawSignals where
  title : String
  price_text : String
  cta_text : String
  reviews : List String
deriving DecidableEq, Repr

/-- Modelled from the spec: a stored Product (§3).  `url` is the normalized
dedup key.  A record is only ever written with a fully-populated summary
(§4.3 writes happen after a successful summarize), so `summary` is total
here; absence of a record models the "no summary" state. -/
structure Product where
  id : Nat
  url : UrlParts
  raw_signals : RawSignals
  summary : Summary
  created_at : Nat
  updated_at : Nat
deriving DecidableEq, Repr

/-- Modelled from the spec: the Product Store backend — records plus the next
fresh id (§4.3, §6). -/
structure Store where
  products : List Product
  nextId : Nat
deriving DecidableEq, Repr

/-- Look up the record stored under a normalized URL. -/
def Store.findUrl (st : Store) (nu : UrlParts) : Option Product :=
  st.products.find? (fun p => p.url == nu)

/-- How many stored records carry a given normalized URL. -/
def Store.countUrl (st : Store) (nu : UrlParts) : Nat :=
  (st.products.filter (fun p => p.url == nu)).length

/-- Modelled from the spec: normalized URLs are unique across the store
(§3 invariant). -/
def urlsUnique (st : Store) : Prop :=
  st.products.Pairwise (fun a b => a.url ≠ b.url)

/-- Modelled from the spec: the atomic replace-or-insert of §4.3 — replace
the record keyed by the normalized URL in place (refreshing `updated_at`), or
insert a fresh record with a new id. -/
def replaceOrInsert (st : Store) (nu : UrlParts) (rs : RawSignals)
    (s : Summary) (now : Nat) : Product × Store :=
  match st.findUrl nu with
  | some old =>
    let upd : Product :=
      { old with raw_signals := rs, summary := s, updated_at := now }
    (upd, { st with
            products := st.products.map (fun p => if p.url == nu then upd else p) })
  | none =>
    let fresh : Product :=
      { id := st.nextId, url := nu, raw_signals := rs, summary := s,
        created_at := now, updated_at := now }
    (fresh, { products := st.products ++ [fresh], nextId := st.nextId + 1 })

/-- Modelled from the spec: the error taxonomy of a scrape call (§7). -/
inductive ScrapeError
  | FetchFailure
  | SummarizationFailure
deriving DecidableEq, Repr

/-- Outcome of one `scrapeAndIndex` call: the typed result (product plus
`cached` flag), the store after the call, and how many times the Summarizer
was invoked during the call. -/
structure ScrapeOutcome where
  result : Except ScrapeError (Product × Bool)
  store : Store
  summarizerCalls : Nat
deriving Repr

/-- Modelled from the spec: `scrapeAndIndex(url, force_refresh)` (§4.3, §6).
If a record with the normalized URL exists and `force` is false, the existing
record is returned unchanged with `cached = true` and the Summarizer is not
invoked.  Otherwise the pipeline runs: the external fetch+extract result
(`fetched`, `none` on failure) feeds one Summarizer invocation on the
external LLM outcome, and on success the store performs the atomic
replace-or-insert stamped `now`. -/
def scrapeAndIndex (st : Store) (url : UrlParts) (force : Bool)
    (fetched : Option RawSignals) (llm : LLMOutcome) (now : Nat) :
    ScrapeOutcome :=
  match st.findUrl (normalizeUrl url), force with
  | some p, false => ⟨.ok (p, true), st, 0⟩
  | _, _ =>
    match fetched with
    | none => ⟨.error .FetchFailure, st, 0⟩
    | some rs =>
      match summarize llm with
      | .error _ => ⟨.error .SummarizationFailure, st, 1⟩
      | .ok s =>
        ⟨.ok ((replaceOrInsert st (normalizeUrl url) rs s now).1, false),
         (replaceOrInsert st (normalizeUrl url) rs s now).2, 1⟩

/-! ## Artifact Generator (modelled from the spec, §4.4) -/

/-- Render a normalized URL back to text (for the product link). -/
def renderUrl (u : UrlParts) : String :=
  u.scheme ++ "://" ++ u.host ++ u.path

/-- Modelled from the spec: one per-product section of `llms_txt` (§4.4 and
the README's example) — name as a link to `cta_url` (or the product URL when
no CTA decoded), price, why-buy quote, best-for-intent tag. -/
def renderProductSection (p : Product) : String :=
  "### [" ++ p.summary.title ++ "](" ++
    (if p.summary.cta_url = "" then renderUrl p.url else p.summary.cta_url) ++
    ")\n" ++
  "- **Price**: " ++ p.summary.price ++ "\n" ++
  "- **Why Buy**: _" ++ p.summary.why_buy ++ "_\n" ++
  "- **Best For**: " ++ p.summary.best_for_intent ++ "\n\n"

/-- Modelled from the spec: the `llms_txt` header block — generation
timestamp and product count (§4.4).  The timestamp is an explicit input so
that generation is a pure function of its inputs. -/
def llmsHeader (generatedAt : String) (count : Nat) : String :=
  "# Agentic Sitemap - Product Intelligence Layer\n\n" ++
  "> Generated: " ++ generatedAt ++ "\n" ++
  "> Products Indexed: " ++ toString count ++ "\n\n" ++
  "## Indexed Products\n\n"

/-- Modelled from the spec: the `llms_txt` markdown artifact — header block
followed by one section per product, rendered in the order of the input
sequence (insertion order, the fixed stable order of §4.4). -/
def generateLlmsTxt (generatedAt : String) (products : List Product) : String :=
  llmsHeader generatedAt products.length ++
    String.join (products.map renderProductSection)

/-- Modelled from the spec: one entry of the structured `agent_map` artifact
— the same per-product fields plus `confidence` (§4.4). -/
structure AgentMapEntry where
  title : String
  price : String
  why_buy : String
  best_for_intent : String
  cta_url : String
  stock_status : StockStatus
  sentiment : Sentiment
  confidence : ℚ
deriving DecidableEq, Repr

/-- The `agent_map` entry of one product. -/
def agentMapEntry (p : Product) : AgentMapEntry :=
  { title := p.summary.title
    price := p.summary.price
    why_buy := p.summary.why_buy
    best_for_intent := p.summary.best_for_intent
    cta_url := p.summary.cta_url
    stock_status := p.summary.stock_status
    sentiment := p.summary.sentiment
    confidence := p.summary.confidence }

/-- Modelled from the spec: `generate(products) -> (llms_txt, agent_map)`
(§4.4) — a pure transform of the timestamp and the ordered product
sequence. -/
def generateArtifacts (generatedAt : String) (products : List Product) :
    String × List AgentMapEntry :=
  (generateLlmsTxt generatedAt products, products.map agentMapEntry)

/-! ## Per-URL concurrency model (modelled from the spec, §4.3 and §5)

Two `scrapeAndIndex` calls race on the same *new* normalized URL.  Each call
is a small program whose atomic steps interleave under an arbitrary
scheduler: at start it checks the store (cache hit returns immediately) and
tries to take the per-URL lock — the spec lets implementers pick wait-or-
reject, and this model picks the reject-with-`Busy` policy; the pipeline then
runs for some number of internal steps (fetch, summarize) and finishes with
one atomic replace-or-insert that also releases the lock.  No intermediate
store state is ever written, so no partial summary is visible. -/

/-- Phase of one in-flight `scrapeAndIndex` call in the race model. -/
inductive OpPhase
  | ready
  | working (remaining : Nat)
  | doneOk (cached : Bool)
  | doneBusy
deriving DecidableEq, Repr

/-- The shared state of the race: the store, the per-URL lock for the
contested normalized URL, and both callers' phases. -/
structure ConcState where
  store : Store
  locked : Bool
  phaseA : OpPhase
  phaseB : OpPhase
deriving DecidableEq, Repr

/-- Is the phase in the locked pipeline section? -/
def OpPhase.isWorking : OpPhase → Bool
  | .working _ => true
  | _ => false

/-- Has the call finished (with a product or with `Busy`)? -/
def OpPhase.isDone : OpPhase → Bool
  | .doneOk _ => true
  | .doneBusy => true
  | _ => false

/-- One atomic step of one caller: from `ready`, a cache hit returns the
stored record; otherwise the caller takes the free lock and enters the
pipeline, or is rejected with `Busy` when the lock is held.  The pipeline
counts down and its last step atomically writes the record and releases the
lock.  Finished callers do nothing. -/
def stepOp (nu : UrlParts) (rs : RawSignals) (s : Summary) (now steps : Nat)
    (st : Store) (locked : Bool) : OpPhase → OpPhase × Store × Bool
  | .ready =>
    match st.findUrl nu with
    | some _ => (.doneOk true, st, locked)
    | none =>
      if locked then (.doneBusy, st, locked)
      else (.working steps, st, true)
  | .working (n + 1) => (.working n, st, locked)
  | .working 0 => (.doneOk false, (replaceOrInsert st nu rs s now).2, false)
  | ph => (ph, st, locked)

/-- Scheduler step: advance caller A when `choice` is true, else caller B. -/
def schedStep (nu : UrlParts) (rs : RawSignals) (s : Summary)
    (now steps : Nat) (c : ConcState) (choice : Bool) : ConcState :=
  if choice then
    let r := stepOp nu rs s now steps c.store c.locked c.phaseA
    { store := r.2.1, locked := r.2.2, phaseA := r.1, phaseB := c.phaseB }
  else
    let r := stepOp nu rs s now steps c.store c.locked c.phaseB
    { store := r.2.1, locked := r.2.2, phaseA := c.phaseA, phaseB := r.1 }

/-- Run the race under a scheduler word. -/
def runRace (nu : UrlParts) (rs : RawSignals) (s : Summary)
    (now steps : Nat) (c : ConcState) : List Bool → ConcState
  | [] => c
  | ch :: rest => runRace nu rs s now steps (schedStep nu rs s now steps c ch) rest

/-- C9: every scrape operation through the proxy route carries the explicit
120000 ms (2 minute) upper-bound timeout; exactly one backend fetch is issued
per request whatever its outcome (no automatic retry); a timeout is reported
as HTTP 408 with the timeout detail message, distinct from the 502 returned
for any other failure. -/
theorem scrapeProxy_timeout_handling
    (backend : Nat → ProxyFetchResult) (errText : String)
    (hto : backend 0 = .failure "TimeoutError" errText)
    (other : Nat → ProxyFetchResult) (errName errText2 : String)
    (hoth : other 0 = .failure errName errText2)
    (hnn : errName ≠ "TimeoutError") :
    SCRAPE_PROXY_TIMEOUT_MS = 120 * 1000 ∧
    (scrapeProxyPost backend).2 = 1 ∧
    (scrapeProxyPost other).2 = 1 ∧
    (scrapeProxyPost backend).1 = ⟨408, TIMEOUT_DETAIL⟩ ∧
    (scrapeProxyPost other).1 = ⟨502, errText2⟩ ∧
    (scrapeProxyPost backend).1.status ≠ (scrapeProxyPost other).1.status := by
  refine ⟨rfl, rfl, rfl, ?_, ?_, ?_⟩
  · simp [scrapeProxyPost, handleProxyFetch, hto]
  · simp [scrapeProxyPost, handleProxyFetch, hoth, hnn]
  · simp [scrapeProxyPost, handleProxyFetch, hto, hoth, hnn]

theorem scrapeProxy_timeout_handling_witness :
    SCRAPE_PROXY_TIMEOUT_MS = 120 * 1000 ∧
    (scrapeProxyPost fun _ => .failure "TimeoutError" "abort").2 = 1 ∧
    (scrapeProxyPost fun _ => .failure "TypeError" "fetch failed").2 = 1 ∧
    (scrapeProxyPost fun _ => .failure "TimeoutError" "abort").1 = ⟨408, TIMEOUT_DETAIL⟩ ∧
    (scrapeProxyPost fun _ => .failure "TypeError" "fetch failed").1 = ⟨502, "fetch failed"⟩ ∧
    (scrapeProxyPost fun _ => .failure "TimeoutError" "abort").1.status ≠
      (scrapeProxyPost fun _ => .failure "TypeError" "fetch failed").1.status :=
  scrapeProxy_timeout_handling (fun _ => .failure "TimeoutError" "abort") "abort" rfl
    (fun _ => .failure "TypeError" "fetch failed") "TypeError" "fetch failed" rfl
    (by decide)

/-- C10: in `ProductCard`, a `summary.confidence` that is absent or not a
number is treated as 0.5, and the card is flagged stale (yellow
low-confidence warning with the Re-scrape prompt) exactly when that
confidence is strictly below 0.15 or the summary title is empty or
missing. -/
theorem productCard_staleness_rule (s : CardSummary) (c : Option JsonVal)
    (hc : ∀ q, c ≠ some (.jnum q)) (ht : ∀ q, s.title ≠ some (.jnum q)) :
    cardConfidence c = 1/2 ∧
    (isStale s = true ↔
      cardConfidence s.confidence < 15/100 ∨ s.title = none ∨
        s.title = some (.jstr "")) := by
  constructor
  · cases c with
    | none => rfl
    | some v =>
      cases v with
      | jstr t => rfl
      | jnum q => exact absurd rfl (hc q)
  · cases htl : s.title with
    | none => simp [isStale, jsTruthy, htl]
    | some v =>
      cases v with
      | jstr t =>
        simp [isStale, jsTruthy, htl]
      | jnum q => exact absurd htl (ht q)

theorem productCard_staleness_rule_witness :
    cardConfidence (some (.jstr "0.9")) = 1/2 ∧
    (isStale ⟨some (.jnum (1/10)), some (.jstr "Trail Shoe")⟩ = true ↔
      cardConfidence (some (.jnum (1/10))) < 15/100 ∨
        (some (JsonVal.jstr "Trail Shoe") : Option JsonVal) = none ∨
        (some (JsonVal.jstr "Trail Shoe") : Option JsonVal) = some (.jstr "")) :=
  productCard_staleness_rule ⟨some (.jnum (1/10)), some (.jstr "Trail Shoe")⟩
    (some (.jstr "0.9")) (by simp) (by simp)

/-- C2: for every question that is blank after trimming, `compare` fails with
`ComparisonError.EmptyQuestion` before any LLM call is made (zero LLM
invocations) and no Comparison record is persisted (the history is returned
unchanged). -/
theorem compare_empty_question_short_circuit (q snap : String)
    (llm : Prompt → Option LLMReply) (nextId now : Nat)
    (history : List Comparison) (h : trimmed q = "") :
    compareAndStore q snap llm nextId now history =
      (.error .EmptyQuestion, 0, history) := by
  simp [compareAndStore, compare, h]

theorem compare_empty_question_short_circuit_witness :
    compareAndStore "   " "ctx" (fun _ => some ⟨"answer", 7⟩) 1 5 [] =
      (.error .EmptyQuestion, 0, []) :=
  compare_empty_question_short_circuit "   " "ctx" (fun _ => some ⟨"answer", 7⟩)
    1 5 [] (by decide)


/-- A successful `compareAndStore` came from two successful LLM calls on the
two prompts, and appended exactly the returned record to the history. -/
lemma compareAndStore_ok_shape (q snap : String) (llm : Prompt → Option LLMReply)
    (nextId now : Nat) (history : List Comparison) (c : Comparison)
    (hok : (compareAndStore q snap llm nextId now history).1 = .ok c) :
    (∃ r1 r2, llm ⟨MODEL_CONFIG, q, none⟩ = some r1 ∧
      llm ⟨MODEL_CONFIG, q, some snap⟩ = some r2 ∧
      c = ⟨nextId, q, ⟨⟨MODEL_CONFIG, q, none⟩, r1.answer, r1.tokens_used⟩,
        ⟨⟨MODEL_CONFIG, q, some snap⟩, r2.answer, r2.tokens_used⟩, now⟩) ∧
    (compareAndStore q snap llm nextId now history).2.2 = history ++ [c] := by
  unfold compareAndStore compare at hok ⊢
  by_cases hq : trimmed q = ""
  · simp [hq] at hok
  · simp only [if_neg hq] at hok ⊢
    cases h1 : llm ⟨MODEL_CONFIG, q, none⟩ with
    | none => simp [h1] at hok
    | some r1 =>
      cases h2 : llm ⟨MODEL_CONFIG, q, some snap⟩ with
      | none => simp [h1, h2] at hok
      | some r2 =>
        simp only [h1, h2] at hok ⊢
        have hc := (Except.ok.injEq _ _).mp hok
        refine ⟨⟨r1, r2, rfl, rfl, hc.symm⟩, ?_⟩
        rw [hc]

/-- A failed `compareAndStore` leaves the history untouched. -/
lemma compareAndStore_error_shape (q snap : String) (llm : Prompt → Option LLMReply)
    (nextId now : Nat) (history : List Comparison) (e : ComparisonError)
    (herr : (compareAndStore q snap llm nextId now history).1 = .error e) :
    (compareAndStore q snap llm nextId now history).2.2 = history := by
  unfold compareAndStore compare at herr ⊢
  by_cases hq : trimmed q = ""
  · simp [hq]
  · simp only [if_neg hq] at herr ⊢
    cases h1 : llm ⟨MODEL_CONFIG, q, none⟩ with
    | none => simp [h1]
    | some r1 =>
      cases h2 : llm ⟨MODEL_CONFIG, q, some snap⟩ with
      | none => simp [h1, h2]
      | some r2 => simp [h1, h2] at herr

/-- C6: every persisted Comparison record has `without_context` and
`with_context` answering the identical question text with the same model
configuration, differing only in the injected context; and when either of the
two LLM calls fails, no Comparison record (partial or otherwise) is
persisted. -/
theorem comparison_two_sided_atomicity
    (q snap : String) (llm : Prompt → Option LLMReply) (nextId now : Nat)
    (history : List Comparison) (c : Comparison)
    (hok : (compareAndStore q snap llm nextId now history).1 = .ok c)
    (q2 snap2 : String) (llm2 : Prompt → Option LLMReply) (nextId2 now2 : Nat)
    (history2 : List Comparison) (e : ComparisonError)
    (herr : (compareAndStore q2 snap2 llm2 nextId2 now2 history2).1 = .error e) :
    c.without_context.prompt.question = c.with_context.prompt.question ∧
    c.without_context.prompt.question = c.question ∧
    c.without_context.prompt.modelConfig = c.with_context.prompt.modelConfig ∧
    c.without_context.prompt.context = none ∧
    c.with_context.prompt.context = some snap ∧
    (compareAndStore q snap llm nextId now history).2.2 = history ++ [c] ∧
    (compareAndStore q2 snap2 llm2 nextId2 now2 history2).2.2 = history2 := by
  obtain ⟨⟨r1, r2, -, -, hc⟩, happ⟩ :=
    compareAndStore_ok_shape q snap llm nextId now history c hok
  subst hc
  have hkeep := compareAndStore_error_shape q2 snap2 llm2 nextId2 now2 history2 e herr
  exact ⟨rfl, rfl, rfl, rfl, rfl, happ, hkeep⟩

theorem comparison_two_sided_atomicity_witness :
    let c : Comparison :=
      ⟨3, "Which?", ⟨⟨MODEL_CONFIG, "Which?", none⟩, "generic", 5⟩,
        ⟨⟨MODEL_CONFIG, "Which?", some "map"⟩, "grounded", 9⟩, 11⟩
    c.without_context.prompt.question = c.with_context.prompt.question ∧
    c.without_context.prompt.question = c.question ∧
    c.without_context.prompt.modelConfig = c.with_context.prompt.modelConfig ∧
    c.without_context.prompt.context = none ∧
    c.with_context.prompt.context = some "map" ∧
    (compareAndStore "Which?" "map"
      (fun p => if p.context = none then some ⟨"generic", 5⟩ else some ⟨"grounded", 9⟩)
      3 11 []).2.2 = [] ++ [c] ∧
    (compareAndStore "Which?" "map" (fun _ => none) 3 11 [⟨0, "old", ⟨⟨"m", "old", none⟩, "a", 1⟩, ⟨⟨"m", "old", some "s"⟩, "b", 2⟩, 0⟩]).2.2
      = [⟨0, "old", ⟨⟨"m", "old", none⟩, "a", 1⟩, ⟨⟨"m", "old", some "s"⟩, "b", 2⟩, 0⟩] :=
  comparison_two_sided_atomicity "Which?" "map"
    (fun p => if p.context = none then some ⟨"generic", 5⟩ else some ⟨"grounded", 9⟩)
    3 11 [] _ rfl
    "Which?" "map" (fun _ => none) 3 11
    [⟨0, "old", ⟨⟨"m", "old", none⟩, "a", 1⟩, ⟨⟨"m", "old", some "s"⟩, "b", 2⟩, 0⟩]
    .LLMFailure rfl

/-- C8: the Summarizer maps any `stock_status` outside its enum to `unknown`
and any `sentiment` outside its enum to `neutral` instead of rejecting the
response, which therefore still yields a Summary; the stored Summary's enum
fields are `StockStatus`/`Sentiment` values by construction, hence always
within their enums. -/
theorem summarizer_enum_coercion (f : LLMFields) (b : Bool)
    (hs1 : f.stock_status ≠ "in_stock") (hs2 : f.stock_status ≠ "out_of_stock")
    (hs3 : f.stock_status ≠ "unknown")
    (he1 : f.sentiment ≠ "positive") (he2 : f.sentiment ≠ "neutral")
    (he3 : f.sentiment ≠ "negative") :
    summarize (if b then .salvaged f else .parsed f) = .ok (buildSummary f b) ∧
    (buildSummary f b).stock_status = .unknown ∧
    (buildSummary f b).sentiment = .neutral := by
  refine ⟨?_, ?_, ?_⟩
  · cases b <;> rfl
  · simp [buildSummary, coerceStock, hs1, hs2]
  · simp [buildSummary, coerceSentiment, he1, he3]

theorem summarizer_enum_coercion_witness :
    summarize (if false then .salvaged ⟨"Shoe", "$10", "MAYBE", "angry", "w", "b", "u"⟩
               else .parsed ⟨"Shoe", "$10", "MAYBE", "angry", "w", "b", "u"⟩) =
      .ok (buildSummary ⟨"Shoe", "$10", "MAYBE", "angry", "w", "b", "u"⟩ false) ∧
    (buildSummary ⟨"Shoe", "$10", "MAYBE", "angry", "w", "b", "u"⟩ false).stock_status = .unknown ∧
    (buildSummary ⟨"Shoe", "$10", "MAYBE", "angry", "w", "b", "u"⟩ false).sentiment = .neutral :=
  summarizer_enum_coercion ⟨"Shoe", "$10", "MAYBE", "angry", "w", "b", "u"⟩ false
    (by decide) (by decide) (by decide) (by decide) (by decide) (by decide)

/-- `clamp01` lands in `[0,1]`. -/
lemma clamp01_nonneg (x : ℚ) : 0 ≤ clamp01 x := le_max_left 0 _

lemma clamp01_le_one (x : ℚ) : clamp01 x ≤ 1 :=
  max_le (by norm_num) (min_le_left 1 x)

lemma clamp01_lt_of_lt (x c : ℚ) (hc : 0 < c) (hx : x < c) : clamp01 x < c := by
  unfold clamp01
  exact max_lt hc (lt_of_le_of_lt (min_le_right 1 x) hx)

lemma completeness_nonneg (f : LLMFields) : 0 ≤ completeness f := by
  unfold completeness
  positivity

/-- With an empty title at most four of the five required fields are
populated. -/
lemma completeness_le_of_empty_title (f : LLMFields) (h : f.title = "") :
    completeness f ≤ 4/5 := by
  unfold completeness requiredFields
  rw [h]
  have hstep :
      List.filter (fun s => s != "")
          ["", f.price, f.why_buy, f.best_for_intent, f.cta_url] =
        List.filter (fun s => s != "")
          [f.price, f.why_buy, f.best_for_intent, f.cta_url] := by
    simp
  rw [hstep]
  have hlen :
      (List.filter (fun s => s != "")
          [f.price, f.why_buy, f.best_for_intent, f.cta_url]).length ≤ 4 := by
    simpa using
      List.length_filter_le (fun s => s != "")
        [f.price, f.why_buy, f.best_for_intent, f.cta_url]
  have hq : ((List.filter (fun s => s != "")
      [f.price, f.why_buy, f.best_for_intent, f.cta_url]).length : ℚ) ≤ 4 := by
    exact_mod_cast hlen
  linarith

lemma scoreConfidence_nonneg (f : LLMFields) (b : Bool) :
    0 ≤ scoreConfidence f b := clamp01_nonneg _

lemma scoreConfidence_le_one (f : LLMFields) (b : Bool) :
    scoreConfidence f b ≤ 1 := clamp01_le_one _

lemma scoreConfidence_lt_of_empty_title (f : LLMFields) (b : Bool)
    (h : f.title = "") : scoreConfidence f b < 15/100 := by
  have h0 := completeness_nonneg f
  have h4 := completeness_le_of_empty_title f h
  simp only [scoreConfidence, if_pos h]
  apply clamp01_lt_of_lt _ _ (by norm_num)
  cases b <;> simp <;> linarith

lemma summarize_ok_shape (o : LLMOutcome) (t : Summary)
    (ho : summarize o = .ok t) : ∃ f b, t = buildSummary f b := by
  cases o with
  | parsed f =>
    refine ⟨f, false, ?_⟩
    simpa [summarize] using ho.symm
  | salvaged f =>
    refine ⟨f, true, ?_⟩
    simpa [summarize] using ho.symm
  | noResponse => simp [summarize] at ho

/-- C5: every Summary produced by the Summarizer has `confidence` in the
closed interval [0,1], and every produced Summary whose `title` is empty has
`confidence` strictly below the staleness-flagging threshold 0.15. -/
theorem summary_confidence_policy (out : LLMOutcome) (s : Summary)
    (h : summarize out = .ok s)
    (out2 : LLMOutcome) (s2 : Summary) (h2 : summarize out2 = .ok s2)
    (ht : s2.title = "") :
    0 ≤ s.confidence ∧ s.confidence ≤ 1 ∧ s2.confidence < 15/100 := by
  obtain ⟨f, b, rfl⟩ := summarize_ok_shape out s h
  obtain ⟨g, b2, rfl⟩ := summarize_ok_shape out2 s2 h2
  have htg : g.title = "" := ht
  exact ⟨scoreConfidence_nonneg f b, scoreConfidence_le_one f b,
    scoreConfidence_lt_of_empty_title g b2 htg⟩

theorem summary_confidence_policy_witness :
    0 ≤ (buildSummary ⟨"Trail Shoe", "$59", "in_stock", "positive", "light", "runners", "u"⟩ false).confidence ∧
    (buildSummary ⟨"Trail Shoe", "$59", "in_stock", "positive", "light", "runners", "u"⟩ false).confidence ≤ 1 ∧
    (buildSummary ⟨"", "$5", "x", "y", "w", "b", "u"⟩ true).confidence < 15/100 :=
  summary_confidence_policy
    (.parsed ⟨"Trail Shoe", "$59", "in_stock", "positive", "light", "runners", "u"⟩) _ rfl
    (.salvaged ⟨"", "$5", "x", "y", "w", "b", "u"⟩) _ rfl rfl

/-- C3: `generateArtifacts` is deterministic — on identical input (same
records, same order, same generation timestamp) the `llms_txt` string and the
`agent_map` document are byte-identical — and products are rendered in the
fixed stable order of the input sequence. -/
theorem generate_artifacts_deterministic (t : String) (ps qs : List Product)
    (h : ps = qs) :
    (generateArtifacts t ps).1 = (generateArtifacts t qs).1 ∧
    (generateArtifacts t ps).2 = (generateArtifacts t qs).2 ∧
    (generateArtifacts t ps).2.map AgentMapEntry.title =
      ps.map (fun p => p.summary.title) := by
  subst h
  refine ⟨rfl, rfl, ?_⟩
  simp [generateArtifacts, agentMapEntry, List.map_map, Function.comp]

/-- Replacing the matching element keeps it findable under the key. -/
lemma find_map_ite (nu : UrlParts) (upd : Product) (hupd : upd.url = nu)
    (l : List Product) (old : Product)
    (h : l.find? (fun p => p.url == nu) = some old) :
    (l.map (fun p => if p.url == nu then upd else p)).find?
        (fun p => p.url == nu) = some upd := by
  induction l with
  | nil => simp at h
  | cons a l ih =>
    by_cases ha : (a.url == nu) = true
    · have hb : (upd.url == nu) = true := beq_iff_eq.mpr hupd
      rw [List.map_cons, if_pos ha]
      simp only [List.find?_cons, hb]
    · have ha' : (a.url == nu) = false := by simpa using ha
      simp only [List.find?_cons, ha'] at h
      rw [List.map_cons, if_neg ha]
      simp only [List.find?_cons, ha']
      exact ih h

/-- After `replaceOrInsert` the record keyed by the normalized URL is the
returned product. -/
lemma findUrl_replaceOrInsert (st : Store) (nu : UrlParts) (rs : RawSignals)
    (s : Summary) (now : Nat) :
    (replaceOrInsert st nu rs s now).2.findUrl nu =
      some (replaceOrInsert st nu rs s now).1 := by
  unfold replaceOrInsert
  cases hf : st.findUrl nu with
  | none =>
    unfold Store.findUrl at hf ⊢
    simp only [List.find?_append, hf, Option.none_or]
    simp [List.find?_cons]
  | some old =>
    have hf' : st.products.find? (fun p => p.url == nu) = some old := hf
    have hold : old.url = nu := by simpa using List.find?_some hf'
    unfold Store.findUrl
    dsimp only
    exact find_map_ite nu
      ({ old with raw_signals := rs, summary := s, updated_at := now })
      hold st.products old hf'

/-- `replaceOrInsert` stamps the returned record with the write time. -/
lemma replaceOrInsert_updated_at (st : Store) (nu : UrlParts) (rs : RawSignals)
    (s : Summary) (now : Nat) :
    (replaceOrInsert st nu rs s now).1.updated_at = now := by
  unfold replaceOrInsert
  cases hf : st.findUrl nu <;> rfl

/-- URL uniqueness is preserved by the atomic replace-or-insert. -/
lemma urlsUnique_replaceOrInsert (st : Store) (nu : UrlParts) (rs : RawSignals)
    (s : Summary) (now : Nat) (hu : urlsUnique st) :
    urlsUnique (replaceOrInsert st nu rs s now).2 := by
  unfold replaceOrInsert
  cases hf : st.findUrl nu with
  | none =>
    unfold urlsUnique at hu ⊢
    simp only
    rw [List.pairwise_append]
    refine ⟨hu, by simp, ?_⟩
    intro a ha b hb
    have hf' : st.products.find? (fun p => p.url == nu) = none := hf
    have hne := List.find?_eq_none.mp hf' a ha
    simp only [List.mem_singleton] at hb
    rw [hb]
    intro hcon
    exact hne (by simpa using hcon)
  | some old =>
    have hf' : st.products.find? (fun p => p.url == nu) = some old := hf
    have hold : old.url = nu := by simpa using List.find?_some hf'
    unfold urlsUnique at hu ⊢
    simp only
    rw [List.pairwise_map]
    have hkey : ∀ p : Product,
        ((if p.url == nu
            then { old with raw_signals := rs, summary := s, updated_at := now }
            else p) : Product).url = p.url := by
      intro p
      by_cases h : (p.url == nu) = true
      · rw [if_pos h]
        show old.url = p.url
        rw [hold]
        exact (beq_iff_eq.mp h).symm
      · rw [if_neg h]
    exact hu.imp fun hab => by rw [hkey, hkey]; exact hab

/-- URL uniqueness is preserved by any `scrapeAndIndex` call. -/
lemma urlsUnique_scrapeAndIndex (st : Store) (url : UrlParts) (force : Bool)
    (fetched : Option RawSignals) (llm : LLMOutcome) (now : Nat)
    (hu : urlsUnique st) :
    urlsUnique (scrapeAndIndex st url force fetched llm now).store := by
  unfold scrapeAndIndex
  cases hfind : st.findUrl (normalizeUrl url) with
  | some p =>
    cases force with
    | false => exact hu
    | true =>
      cases fetched with
      | none => exact hu
      | some rs =>
        cases hsum : summarize llm with
        | error e => exact hu
        | ok s2 => exact urlsUnique_replaceOrInsert st _ rs s2 now hu
  | none =>
    cases force with
    | false =>
      cases fetched with
      | none => exact hu
      | some rs =>
        cases hsum : summarize llm with
        | error e => exact hu
        | ok s2 => exact urlsUnique_replaceOrInsert st _ rs s2 now hu
    | true =>
      cases fetched with
      | none => exact hu
      | some rs =>
        cases hsum : summarize llm with
        | error e => exact hu
        | ok s2 => exact urlsUnique_replaceOrInsert st _ rs s2 now hu

/-- C1: upsert cache semantics of `scrapeAndIndex`.  On an already-indexed
normalized URL with `force_refresh = false` the existing record is returned
unchanged with `cached = true`, the store (hence `updated_at`) is untouched
and the Summarizer is not invoked.  With `force_refresh = true`, or on a URL
with no record, the full pipeline runs: the Summarizer is invoked exactly
once, the store performs the atomic replace-or-insert, and `updated_at`
becomes the current time, strictly greater than the old record's. -/
theorem scrape_upsert_cache_semantics
    (st : Store) (url : UrlParts) (fetched : Option RawSignals)
    (llm : LLMOutcome) (now : Nat) (p : Product)
    (hhit : st.findUrl (normalizeUrl url) = some p)
    (rs : RawSignals) (s : Summary)
    (hf : fetched = some rs) (hs : summarize llm = .ok s)
    (hts : p.updated_at < now)
    (st2 : Store) (url2 : UrlParts)
    (hmiss : st2.findUrl (normalizeUrl url2) = none) :
    scrapeAndIndex st url false fetched llm now = ⟨.ok (p, true), st, 0⟩ ∧
    (scrapeAndIndex st url true fetched llm now).summarizerCalls = 1 ∧
    (scrapeAndIndex st url true fetched llm now).result =
      .ok ((replaceOrInsert st (normalizeUrl url) rs s now).1, false) ∧
    (scrapeAndIndex st url true fetched llm now).store =
      (replaceOrInsert st (normalizeUrl url) rs s now).2 ∧
    p.updated_at < (replaceOrInsert st (normalizeUrl url) rs s now).1.updated_at ∧
    (scrapeAndIndex st2 url2 false fetched llm now).summarizerCalls = 1 ∧
    (scrapeAndIndex st2 url2 false fetched llm now).result =
      .ok ((replaceOrInsert st2 (normalizeUrl url2) rs s now).1, false) ∧
    (scrapeAndIndex st2 url2 false fetched llm now).store =
      (replaceOrInsert st2 (normalizeUrl url2) rs s now).2 := by
  subst hf
  refine ⟨?_, ?_, ?_, ?_, ?_, ?_, ?_, ?_⟩
  · simp [scrapeAndIndex, hhit]
  · simp [scrapeAndIndex, hhit, hs]
  · simp [scrapeAndIndex, hhit, hs]
  · simp [scrapeAndIndex, hhit, hs]
  · rw [replaceOrInsert_updated_at]
    exact hts
  · simp [scrapeAndIndex, hmiss, hs]
  · simp [scrapeAndIndex, hmiss, hs]
  · simp [scrapeAndIndex, hmiss, hs]

/-- C4: URL dedup invariant.  Normalized-URL uniqueness is preserved by every
`scrapeAndIndex` call; a URL extended with known tracking query parameters
and a fragment normalizes identically, and so does a URL differing only by
case of scheme/host (and fragment); and after indexing a URL, a second
`scrapeAndIndex` on either the tracking-decorated variant or the
case-of-scheme/host variant resolves to the very same Product (same id) as a
cache hit. -/
theorem url_dedup_invariant
    (st : Store) (url : UrlParts) (force : Bool) (fetched : Option RawSignals)
    (llm : LLMOutcome) (now : Nat) (hu : urlsUnique st)
    (u : UrlParts) (extra : List (String × String)) (frag : Option String)
    (hex : ∀ pr ∈ extra, pr.1 ∈ TRACKING_PARAMS)
    (st0 : Store) (rs : RawSignals) (llm1 : LLMOutcome) (s : Summary)
    (hs : summarize llm1 = .ok s)
    (hmiss : st0.findUrl (normalizeUrl u) = none)
    (f2 : Option RawSignals) (l2 : LLMOutcome) (now2 : Nat)
    (u2 : UrlParts)
    (hc1 : lowerStr u2.scheme = lowerStr u.scheme)
    (hc2 : lowerStr u2.host = lowerStr u.host)
    (hc3 : u2.path = u.path) (hc4 : u2.query = u.query)
    (f3 : Option RawSignals) (l3 : LLMOutcome) (now3 : Nat) :
    urlsUnique (scrapeAndIndex st url force fetched llm now).store ∧
    normalizeUrl (addTracking u extra frag) = normalizeUrl u ∧
    (scrapeAndIndex st0 u false (some rs) llm1 now).result =
      .ok ((replaceOrInsert st0 (normalizeUrl u) rs s now).1, false) ∧
    scrapeAndIndex (scrapeAndIndex st0 u false (some rs) llm1 now).store
        (addTracking u extra frag) false f2 l2 now2 =
      ⟨.ok ((replaceOrInsert st0 (normalizeUrl u) rs s now).1, true),
       (scrapeAndIndex st0 u false (some rs) llm1 now).store, 0⟩ ∧
    normalizeUrl u2 = normalizeUrl u ∧
    scrapeAndIndex (scrapeAndIndex st0 u false (some rs) llm1 now).store
        u2 false f3 l3 now3 =
      ⟨.ok ((replaceOrInsert st0 (normalizeUrl u) rs s now).1, true),
       (scrapeAndIndex st0 u false (some rs) llm1 now).store, 0⟩ := by
  have hnorm : normalizeUrl (addTracking u extra frag) = normalizeUrl u := by
    unfold normalizeUrl addTracking
    simp only [List.filter_append]
    have hnil :
        extra.filter (fun pr => !(TRACKING_PARAMS.contains pr.1)) = [] := by
      rw [List.filter_eq_nil_iff]
      intro a ha
      simp
      exact hex a ha
    rw [hnil, List.append_nil]
  have hstore1 : (scrapeAndIndex st0 u false (some rs) llm1 now).store =
      (replaceOrInsert st0 (normalizeUrl u) rs s now).2 := by
    simp [scrapeAndIndex, hmiss, hs]
  have hres1 : (scrapeAndIndex st0 u false (some rs) llm1 now).result =
      .ok ((replaceOrInsert st0 (normalizeUrl u) rs s now).1, false) := by
    simp [scrapeAndIndex, hmiss, hs]
  have hnorm2 : normalizeUrl u2 = normalizeUrl u := by
    unfold normalizeUrl
    rw [hc1, hc2, hc3, hc4]
  have hfind2 : (scrapeAndIndex st0 u false (some rs) llm1 now).store.findUrl
      (normalizeUrl (addTracking u extra frag)) =
      some ((replaceOrInsert st0 (normalizeUrl u) rs s now).1) := by
    rw [hnorm, hstore1]
    exact findUrl_replaceOrInsert st0 (normalizeUrl u) rs s now
  have hfind3 : (scrapeAndIndex st0 u false (some rs) llm1 now).store.findUrl
      (normalizeUrl u2) =
      some ((replaceOrInsert st0 (normalizeUrl u) rs s now).1) := by
    rw [hnorm2, hstore1]
    exact findUrl_replaceOrInsert st0 (normalizeUrl u) rs s now
  generalize hgen : (scrapeAndIndex st0 u false (some rs) llm1 now).store = st1
    at hfind2 hfind3 hres1 ⊢
  refine ⟨urlsUnique_scrapeAndIndex st url force fetched llm now hu, hnorm,
    hres1, ?_, hnorm2, ?_⟩
  · unfold scrapeAndIndex
    rw [hfind2]
  · unfold scrapeAndIndex
    rw [hfind3]

/-- A URL is absent from the store exactly when its record count is zero. -/
lemma countUrl_eq_zero_iff (st : Store) (nu : UrlParts) :
    st.countUrl nu = 0 ↔ st.findUrl nu = none := by
  unfold Store.countUrl Store.findUrl
  rw [List.length_eq_zero, List.filter_eq_nil_iff, List.find?_eq_none]

/-- Inserting a fresh record raises the count of its URL by one. -/
lemma countUrl_insert (st : Store) (nu : UrlParts) (rs : RawSignals)
    (s : Summary) (now : Nat) (h : st.findUrl nu = none) :
    (replaceOrInsert st nu rs s now).2.countUrl nu = st.countUrl nu + 1 := by
  unfold replaceOrInsert
  rw [h]
  unfold Store.countUrl
  simp [List.filter_append]

@[simp] lemma isWorking_ready : OpPhase.ready.isWorking = false := rfl

@[simp] lemma isWorking_working (n : Nat) :
    (OpPhase.working n).isWorking = true := rfl

@[simp] lemma isWorking_doneOk (cb : Bool) :
    (OpPhase.doneOk cb).isWorking = false := rfl

@[simp] lemma isWorking_doneBusy : OpPhase.doneBusy.isWorking = false := rfl

@[simp] lemma isDone_ready : OpPhase.ready.isDone = false := rfl

@[simp] lemma isDone_working (n : Nat) :
    (OpPhase.working n).isDone = false := rfl

@[simp] lemma isDone_doneOk (cb : Bool) :
    (OpPhase.doneOk cb).isDone = true := rfl

@[simp] lemma isDone_doneBusy : OpPhase.doneBusy.isDone = true := rfl

/-- Invariant of the per-URL race: the lock is held exactly while a caller is
in its pipeline section, at most one caller is ever in the pipeline, nothing
is stored under the contested URL until the single atomic write, the store
holds the record exactly when a caller has completed the write, and rejected
or cache-served callers always point at the one writer. -/
def RaceInv (nu : UrlParts) (c : ConcState) : Prop :=
  c.locked = (c.phaseA.isWorking || c.phaseB.isWorking) ∧
  ¬(c.phaseA.isWorking = true ∧ c.phaseB.isWorking = true) ∧
  (c.phaseA.isWorking = true ∨ c.phaseB.isWorking = true →
    c.store.countUrl nu = 0) ∧
  c.store.countUrl nu =
    (if c.phaseA = .doneOk false ∨ c.phaseB = .doneOk false then 1 else 0) ∧
  ¬(c.phaseA = .doneOk false ∧ c.phaseB = .doneOk false) ∧
  (c.phaseA = .doneBusy →
    c.phaseB.isWorking = true ∨ c.phaseB = .doneOk false) ∧
  (c.phaseB = .doneBusy →
    c.phaseA.isWorking = true ∨ c.phaseA = .doneOk false) ∧
  (c.phaseA = .doneOk true → c.phaseB = .doneOk false) ∧
  (c.phaseB = .doneOk true → c.phaseA = .doneOk false)

/-- One scheduler step preserves the race invariant (caller A scheduled). -/
lemma raceInv_stepA (nu : UrlParts) (rs : RawSignals) (s : Summary)
    (now steps : Nat) (c : ConcState) (h : RaceInv nu c) :
    RaceInv nu (schedStep nu rs s now steps c true) := by
  obtain ⟨h1, h2, h3, h4, h5, h6, h7, h8, h9⟩ := h
  cases hA : c.phaseA with
  | ready =>
    cases hf : c.store.findUrl nu with
    | some p =>
      have hnz : ¬ c.store.countUrl nu = 0 := by
        rw [countUrl_eq_zero_iff, hf]
        simp
      have hDB : c.phaseB = .doneOk false := by
        by_contra hDB
        apply hnz
        rw [h4, if_neg]
        rintro (hA2 | hB2)
        · rw [hA] at hA2
          exact OpPhase.noConfusion hA2
        · exact hDB hB2
      have hcnt1 : c.store.countUrl nu = 1 := by
        rw [h4, if_pos (Or.inr hDB)]
      have hstate : schedStep nu rs s now steps c true =
          ⟨c.store, c.locked, .doneOk true, c.phaseB⟩ := by
        simp [schedStep, stepOp, hA, hf]
      rw [hstate]
      unfold RaceInv
      rw [hA, hDB] at h1
      refine ⟨by simpa [hDB] using h1, by simp [hDB],
        by simp [hDB], by simp [hDB, hcnt1],
        by simp, by simp, by simp [hDB], fun _ => hDB, by simp [hDB]⟩
    | none =>
      cases hl : c.locked with
      | true =>
        rw [hA] at h1
        have hWB : c.phaseB.isWorking = true := by
          rw [hl] at h1
          simpa using h1.symm
        have hcnt0 : c.store.countUrl nu = 0 := h3 (Or.inr hWB)
        have hnd : ¬(c.phaseA = .doneOk false ∨ c.phaseB = .doneOk false) := by
          intro hp
          rw [h4, if_pos hp] at hcnt0
          exact one_ne_zero hcnt0
        have hstate : schedStep nu rs s now steps c true =
            ⟨c.store, c.locked, .doneBusy, c.phaseB⟩ := by
          simp [schedStep, stepOp, hA, hf, hl]
        rw [hstate]
        unfold RaceInv
        refine ⟨by simp [hl, hWB], by simp,
          fun _ => hcnt0, ?_, ?_, fun _ => Or.inl hWB, ?_, by simp, ?_⟩
        · rw [hcnt0, if_neg]
          rintro (hx | hx)
          · exact OpPhase.noConfusion hx
          · exact hnd (Or.inr hx)
        · rintro ⟨hx, -⟩
          exact OpPhase.noConfusion hx
        · intro hb
          rw [hb] at hWB
          simp at hWB
        · intro hb
          have := h9 hb
          rw [hA] at this
          exact OpPhase.noConfusion this
      | false =>
        rw [hA, hl] at h1
        have hWB : c.phaseB.isWorking = false := by
          simpa using h1.symm
        have hcnt0 : c.store.countUrl nu = 0 :=
          (countUrl_eq_zero_iff c.store nu).mpr hf
        have hnd : ¬(c.phaseA = .doneOk false ∨ c.phaseB = .doneOk false) := by
          intro hp
          rw [h4, if_pos hp] at hcnt0
          exact one_ne_zero hcnt0
        have hstate : schedStep nu rs s now steps c true =
            ⟨c.store, true, .working steps, c.phaseB⟩ := by
          simp [schedStep, stepOp, hA, hf, hl]
        rw [hstate]
        unfold RaceInv
        refine ⟨by simp, by simp [hWB],
          fun _ => hcnt0, ?_, by simp, by simp, ?_, by simp, ?_⟩
        · rw [hcnt0, if_neg]
          rintro (hx | hx)
          · exact OpPhase.noConfusion hx
          · exact hnd (Or.inr hx)
        · intro hb
          exact Or.inl rfl
        · intro hb
          have := h9 hb
          rw [hA] at this
          exact OpPhase.noConfusion this
  | working n =>
    cases n with
    | succ m =>
      have hWA : c.phaseA.isWorking = true := by rw [hA]; rfl
      have hcnt0 : c.store.countUrl nu = 0 := h3 (Or.inl hWA)
      have hnd : ¬(c.phaseA = .doneOk false ∨ c.phaseB = .doneOk false) := by
        intro hp
        rw [h4, if_pos hp] at hcnt0
        exact one_ne_zero hcnt0
      have hWB : c.phaseB.isWorking = false := by
        by_contra hWB
        exact h2 ⟨hWA, by simpa using hWB⟩
      have hstate : schedStep nu rs s now steps c true =
          ⟨c.store, c.locked, .working m, c.phaseB⟩ := by
        simp [schedStep, stepOp, hA]
      rw [hstate]
      unfold RaceInv
      rw [hA] at h1
      refine ⟨by simpa using h1, by simp [hWB],
        fun _ => hcnt0, ?_, by simp, by simp, ?_, by simp, ?_⟩
      · rw [hcnt0, if_neg]
        rintro (hx | hx)
        · exact OpPhase.noConfusion hx
        · exact hnd (Or.inr hx)
      · intro hb
        exact Or.inl rfl
      · intro hb
        have := h9 hb
        rw [hA] at this
        exact OpPhase.noConfusion this
    | zero =>
      have hWA : c.phaseA.isWorking = true := by rw [hA]; rfl
      have hcnt0 : c.store.countUrl nu = 0 := h3 (Or.inl hWA)
      have hfnone : c.store.findUrl nu = none :=
        (countUrl_eq_zero_iff c.store nu).mp hcnt0
      have hnd : ¬(c.phaseA = .doneOk false ∨ c.phaseB = .doneOk false) := by
        intro hp
        rw [h4, if_pos hp] at hcnt0
        exact one_ne_zero hcnt0
      have hWB : c.phaseB.isWorking = false := by
        by_contra hWB
        exact h2 ⟨hWA, by simpa using hWB⟩
      have hcnt1 : (replaceOrInsert c.store nu rs s now).2.countUrl nu = 1 := by
        rw [countUrl_insert c.store nu rs s now hfnone, hcnt0]
      have hstate : schedStep nu rs s now steps c true =
          ⟨(replaceOrInsert c.store nu rs s now).2, false, .doneOk false,
            c.phaseB⟩ := by
        simp [schedStep, stepOp, hA]
      rw [hstate]
      unfold RaceInv
      refine ⟨by simp [hWB], by simp, ?_,
        ?_, ?_, by simp, fun _ => Or.inr rfl, by simp, fun _ => rfl⟩
      · rintro (hx | hx)
        · simp at hx
        · rw [hWB] at hx
          exact Bool.noConfusion hx
      · rw [hcnt1, if_pos (Or.inl rfl)]
      · rintro ⟨-, hb⟩
        exact hnd (Or.inr hb)
  | doneOk cb =>
    have hstate : schedStep nu rs s now steps c true =
        ⟨c.store, c.locked, .doneOk cb, c.phaseB⟩ := by
      simp [schedStep, stepOp, hA]
    rw [hstate, ← hA]
    exact ⟨h1, h2, h3, h4, h5, h6, h7, h8, h9⟩
  | doneBusy =>
    have hstate : schedStep nu rs s now steps c true =
        ⟨c.store, c.locked, .doneBusy, c.phaseB⟩ := by
      simp [schedStep, stepOp, hA]
    rw [hstate, ← hA]
    exact ⟨h1, h2, h3, h4, h5, h6, h7, h8, h9⟩

/-- One scheduler step preserves the race invariant (caller B scheduled). -/
lemma raceInv_stepB (nu : UrlParts) (rs : RawSignals) (s : Summary)
    (now steps : Nat) (c : ConcState) (h : RaceInv nu c) :
    RaceInv nu (schedStep nu rs s now steps c false) := by
  obtain ⟨h1, h2, h3, h4, h5, h6, h7, h8, h9⟩ := h
  cases hB : c.phaseB with
  | ready =>
    cases hf : c.store.findUrl nu with
    | some p =>
      have hnz : ¬ c.store.countUrl nu = 0 := by
        rw [countUrl_eq_zero_iff, hf]
        simp
      have hDA : c.phaseA = .doneOk false := by
        by_contra hDA
        apply hnz
        rw [h4, if_neg]
        rintro (hA2 | hB2)
        · exact hDA hA2
        · rw [hB] at hB2
          exact OpPhase.noConfusion hB2
      have hcnt1 : c.store.countUrl nu = 1 := by
        rw [h4, if_pos (Or.inl hDA)]
      have hstate : schedStep nu rs s now steps c false =
          ⟨c.store, c.locked, c.phaseA, .doneOk true⟩ := by
        simp [schedStep, stepOp, hB, hf]
      rw [hstate]
      unfold RaceInv
      rw [hB, hDA] at h1
      refine ⟨by simpa [hDA] using h1, by simp [hDA],
        by simp [hDA], by simp [hDA, hcnt1],
        by simp, by simp [hDA], by simp, by simp [hDA], fun _ => hDA⟩
    | none =>
      cases hl : c.locked with
      | true =>
        rw [hB] at h1
        have hWA : c.phaseA.isWorking = true := by
          rw [hl] at h1
          simpa using h1.symm
        have hcnt0 : c.store.countUrl nu = 0 := h3 (Or.inl hWA)
        have hnd : ¬(c.phaseA = .doneOk false ∨ c.phaseB = .doneOk false) := by
          intro hp
          rw [h4, if_pos hp] at hcnt0
          exact one_ne_zero hcnt0
        have hstate : schedStep nu rs s now steps c false =
            ⟨c.store, c.locked, c.phaseA, .doneBusy⟩ := by
          simp [schedStep, stepOp, hB, hf, hl]
        rw [hstate]
        unfold RaceInv
        refine ⟨by simp [hl, hWA], by simp,
          fun _ => hcnt0, ?_, ?_, ?_, fun _ => Or.inl hWA, ?_, by simp⟩
        · rw [hcnt0, if_neg]
          rintro (hx | hx)
          · exact hnd (Or.inl hx)
          · exact OpPhase.noConfusion hx
        · rintro ⟨-, hx⟩
          exact OpPhase.noConfusion hx
        · intro ha
          rw [ha] at hWA
          simp at hWA
        · intro ha
          have := h8 ha
          rw [hB] at this
          exact OpPhase.noConfusion this
      | false =>
        rw [hB, hl] at h1
        have hWA : c.phaseA.isWorking = false := by
          simpa using h1.symm
        have hcnt0 : c.store.countUrl nu = 0 :=
          (countUrl_eq_zero_iff c.store nu).mpr hf
        have hnd : ¬(c.phaseA = .doneOk false ∨ c.phaseB = .doneOk false) := by
          intro hp
          rw [h4, if_pos hp] at hcnt0
          exact one_ne_zero hcnt0
        have hstate : schedStep nu rs s now steps c false =
            ⟨c.store, true, c.phaseA, .working steps⟩ := by
          simp [schedStep, stepOp, hB, hf, hl]
        rw [hstate]
        unfold RaceInv
        refine ⟨by simp, by simp [hWA],
          fun _ => hcnt0, ?_, by simp, ?_, by simp, ?_, by simp⟩
        · rw [hcnt0, if_neg]
          rintro (hx | hx)
          · exact hnd (Or.inl hx)
          · exact OpPhase.noConfusion hx
        · intro ha
          exact Or.inl rfl
        · intro ha
          have := h8 ha
          rw [hB] at this
          exact OpPhase.noConfusion this
  | working n =>
    cases n with
    | succ m =>
      have hWB : c.phaseB.isWorking = true := by rw [hB]; rfl
      have hcnt0 : c.store.countUrl nu = 0 := h3 (Or.inr hWB)
      have hnd : ¬(c.phaseA = .doneOk false ∨ c.phaseB = .doneOk false) := by
        intro hp
        rw [h4, if_pos hp] at hcnt0
        exact one_ne_zero hcnt0
      have hWA : c.phaseA.isWorking = false := by
        by_contra hWA
        exact h2 ⟨by simpa using hWA, hWB⟩
      have hstate : schedStep nu rs s now steps c false =
          ⟨c.store, c.locked, c.phaseA, .working m⟩ := by
        simp [schedStep, stepOp, hB]
      rw [hstate]
      unfold RaceInv
      rw [hB] at h1
      refine ⟨by simpa using h1, by simp [hWA],
        fun _ => hcnt0, ?_, by simp, ?_, by simp, ?_, by simp⟩
      · rw [hcnt0, if_neg]
        rintro (hx | hx)
        · exact hnd (Or.inl hx)
        · exact OpPhase.noConfusion hx
      · intro ha
        exact Or.inl rfl
      · intro ha
        have := h8 ha
        rw [hB] at this
        exact OpPhase.noConfusion this
    | zero =>
      have hWB : c.phaseB.isWorking = true := by rw [hB]; rfl
      have hcnt0 : c.store.countUrl nu = 0 := h3 (Or.inr hWB)
      have hfnone : c.store.findUrl nu = none :=
        (countUrl_eq_zero_iff c.store nu).mp hcnt0
      have hnd : ¬(c.phaseA = .doneOk false ∨ c.phaseB = .doneOk false) := by
        intro hp
        rw [h4, if_pos hp] at hcnt0
        exact one_ne_zero hcnt0
      have hWA : c.phaseA.isWorking = false := by
        by_contra hWA
        exact h2 ⟨by simpa using hWA, hWB⟩
      have hcnt1 : (replaceOrInsert c.store nu rs s now).2.countUrl nu = 1 := by
        rw [countUrl_insert c.store nu rs s now hfnone, hcnt0]
      have hstate : schedStep nu rs s now steps c false =
          ⟨(replaceOrInsert c.store nu rs s now).2, false, c.phaseA,
            .doneOk false⟩ := by
        simp [schedStep, stepOp, hB]
      rw [hstate]
      unfold RaceInv
      refine ⟨by simp [hWA], by simp, ?_, ?_, ?_, fun _ => Or.inr rfl, by simp,
        fun _ => rfl, by simp⟩
      · rintro (hx | hx)
        · rw [hWA] at hx
          exact Bool.noConfusion hx
        · simp at hx
      · rw [hcnt1, if_pos (Or.inr rfl)]
      · rintro ⟨ha, -⟩
        exact hnd (Or.inl ha)
  | doneOk cb =>
    have hstate : schedStep nu rs s now steps c false =
        ⟨c.store, c.locked, c.phaseA, .doneOk cb⟩ := by
      simp [schedStep, stepOp, hB]
    rw [hstate, ← hB]
    exact ⟨h1, h2, h3, h4, h5, h6, h7, h8, h9⟩
  | doneBusy =>
    have hstate : schedStep nu rs s now steps c false =
        ⟨c.store, c.locked, c.phaseA, .doneBusy⟩ := by
      simp [schedStep, stepOp, hB]
    rw [hstate, ← hB]
    exact ⟨h1, h2, h3, h4, h5, h6, h7, h8, h9⟩

/-- The race invariant holds along any schedule. -/
lemma raceInv_run (nu : UrlParts) (rs : RawSignals) (s : Summary)
    (now steps : Nat) (sched : List Bool) (c : ConcState) (h : RaceInv nu c) :
    RaceInv nu (runRace nu rs s now steps c sched) := by
  induction sched generalizing c with
  | nil => exact h
  | cons ch rest ih =>
    cases ch with
    | true => exact ih _ (raceInv_stepA nu rs s now steps c h)
    | false => exact ih _ (raceInv_stepB nu rs s now steps c h)

/-- The race invariant holds initially for a URL not yet stored. -/
lemma raceInv_init (nu : UrlParts) (st0 : Store) (h0 : st0.countUrl nu = 0) :
    RaceInv nu ⟨st0, false, .ready, .ready⟩ := by
  unfold RaceInv
  refine ⟨by simp, by simp, fun _ => h0, ?_, by simp, by simp, by simp,
    by simp, by simp⟩
  rw [h0, if_neg]
  rintro (hx | hx) <;> exact OpPhase.noConfusion hx

/-- C7: per-URL mutual exclusion.  In the interleaving model of two
concurrent `scrapeAndIndex` calls on the same new normalized URL, under every
schedule at most one caller is inside the scrape/summarize pipeline at a
time and at most one record for the URL is ever stored; under every schedule
in which both callers finish (the loser having been rejected with `Busy` or
served the stored result), exactly one Product is stored.  Writes are single
atomic replace-or-inserts of fully-populated records, so no interleaving
exposes a partial summary. -/
theorem concurrent_scrape_exactly_one
    (nu : UrlParts) (rs : RawSignals) (s : Summary) (now steps : Nat)
    (st0 : Store) (h0 : st0.countUrl nu = 0) (sched1 sched2 : List Bool)
    (hdA : (runRace nu rs s now steps ⟨st0, false, .ready, .ready⟩
      sched2).phaseA.isDone = true)
    (hdB : (runRace nu rs s now steps ⟨st0, false, .ready, .ready⟩
      sched2).phaseB.isDone = true) :
    (runRace nu rs s now steps ⟨st0, false, .ready, .ready⟩
      sched1).store.countUrl nu ≤ 1 ∧
    ¬((runRace nu rs s now steps ⟨st0, false, .ready, .ready⟩
        sched1).phaseA.isWorking = true ∧
      (runRace nu rs s now steps ⟨st0, false, .ready, .ready⟩
        sched1).phaseB.isWorking = true) ∧
    (runRace nu rs s now steps ⟨st0, false, .ready, .ready⟩
      sched2).store.countUrl nu = 1 := by
  have hinv1 := raceInv_run nu rs s now steps sched1 _ (raceInv_init nu st0 h0)
  have hinv2 := raceInv_run nu rs s now steps sched2 _ (raceInv_init nu st0 h0)
  obtain ⟨g1, g2, g3, g4, g5, g6, g7, g8, g9⟩ := hinv1
  obtain ⟨k1, k2, k3, k4, k5, k6, k7, k8, k9⟩ := hinv2
  refine ⟨?_, g2, ?_⟩
  · rw [g4]
    split <;> simp
  · have hD :
        (runRace nu rs s now steps ⟨st0, false, .ready, .ready⟩
          sched2).phaseA = .doneOk false ∨
        (runRace nu rs s now steps ⟨st0, false, .ready, .ready⟩
          sched2).phaseB = .doneOk false := by
      cases hA : (runRace nu rs s now steps ⟨st0, false, .ready, .ready⟩
          sched2).phaseA with
      | ready =>
        rw [hA] at hdA
        simp at hdA
      | working n =>
        rw [hA] at hdA
        simp at hdA
      | doneOk cb =>
        cases cb with
        | false => exact Or.inl rfl
        | true => exact Or.inr (k8 hA)
      | doneBusy =>
        rcases k6 hA with hw | hd
        · cases hBp : (runRace nu rs s now steps ⟨st0, false, .ready, .ready⟩
              sched2).phaseB with
          | working n =>
            rw [hBp] at hdB
            simp at hdB
          | ready =>
            rw [hBp] at hw
            simp at hw
          | doneOk cb =>
            rw [hBp] at hw
            simp at hw
          | doneBusy =>
            rw [hBp] at hw
            simp at hw
        · exact Or.inr hd
    rw [k4, if_pos hD]

/-- Concrete fixture URL (already in normal form) used by witnesses. -/
def wUrl : UrlParts := ⟨"https", "shop.com", "/a", [], none⟩

/-- Concrete fixture LLM fields used by witnesses. -/
def wFields : LLMFields := ⟨"T", "$5", "in_stock", "positive", "w", "b", "u"⟩

/-- Concrete fixture raw signals used by witnesses. -/
def wSignals : RawSignals := ⟨"T", "$5", "Buy", []⟩

/-- Concrete fixture summary used by witnesses. -/
def wSummary : Summary := buildSummary wFields false

/-- Concrete fixture product used by witnesses. -/
def wProduct : Product := ⟨0, wUrl, wSignals, wSummary, 0, 0⟩

/-- Concrete fixture store holding exactly the fixture product. -/
def wStore : Store := ⟨[wProduct], 1⟩

theorem scrape_upsert_cache_semantics_witness :
    scrapeAndIndex wStore wUrl false (some wSignals) (.parsed wFields) 1 =
      ⟨.ok (wProduct, true), wStore, 0⟩ ∧
    (scrapeAndIndex wStore wUrl true (some wSignals)
      (.parsed wFields) 1).summarizerCalls = 1 ∧
    (scrapeAndIndex wStore wUrl true (some wSignals) (.parsed wFields) 1).result =
      .ok ((replaceOrInsert wStore (normalizeUrl wUrl) wSignals wSummary 1).1,
        false) ∧
    (scrapeAndIndex wStore wUrl true (some wSignals) (.parsed wFields) 1).store =
      (replaceOrInsert wStore (normalizeUrl wUrl) wSignals wSummary 1).2 ∧
    wProduct.updated_at <
      (replaceOrInsert wStore (normalizeUrl wUrl) wSignals
        wSummary 1).1.updated_at ∧
    (scrapeAndIndex ⟨[], 0⟩ wUrl false (some wSignals)
      (.parsed wFields) 1).summarizerCalls = 1 ∧
    (scrapeAndIndex ⟨[], 0⟩ wUrl false (some wSignals) (.parsed wFields) 1).result =
      .ok ((replaceOrInsert ⟨[], 0⟩ (normalizeUrl wUrl) wSignals wSummary 1).1,
        false) ∧
    (scrapeAndIndex ⟨[], 0⟩ wUrl false (some wSignals) (.parsed wFields) 1).store =
      (replaceOrInsert ⟨[], 0⟩ (normalizeUrl wUrl) wSignals wSummary 1).2 :=
  scrape_upsert_cache_semantics wStore wUrl (some wSignals) (.parsed wFields) 1
    wProduct rfl wSignals wSummary rfl rfl (by decide) ⟨[], 0⟩ wUrl rfl

theorem url_dedup_invariant_witness :
    urlsUnique (scrapeAndIndex ⟨[], 0⟩ wUrl false none .noResponse 1).store ∧
    normalizeUrl (addTracking wUrl [("gclid", "abc")] (some "frag")) =
      normalizeUrl wUrl ∧
    (scrapeAndIndex ⟨[], 0⟩ wUrl false (some wSignals) (.parsed wFields) 1).result =
      .ok ((replaceOrInsert ⟨[], 0⟩ (normalizeUrl wUrl) wSignals wSummary 1).1,
        false) ∧
    scrapeAndIndex
        (scrapeAndIndex ⟨[], 0⟩ wUrl false (some wSignals) (.parsed wFields) 1).store
        (addTracking wUrl [("gclid", "abc")] (some "frag")) false none
        .noResponse 2 =
      ⟨.ok ((replaceOrInsert ⟨[], 0⟩ (normalizeUrl wUrl) wSignals wSummary 1).1,
          true),
       (scrapeAndIndex ⟨[], 0⟩ wUrl false (some wSignals)
         (.parsed wFields) 1).store, 0⟩ ∧
    normalizeUrl ⟨"HTTPS", "Shop.COM", "/a", [], some "frag2"⟩ =
      normalizeUrl wUrl ∧
    scrapeAndIndex
        (scrapeAndIndex ⟨[], 0⟩ wUrl false (some wSignals) (.parsed wFields) 1).store
        ⟨"HTTPS", "Shop.COM", "/a", [], some "frag2"⟩ false none
        .noResponse 3 =
      ⟨.ok ((replaceOrInsert ⟨[], 0⟩ (normalizeUrl wUrl) wSignals wSummary 1).1,
          true),
       (scrapeAndIndex ⟨[], 0⟩ wUrl false (some wSignals)
         (.parsed wFields) 1).store, 0⟩ :=
  url_dedup_invariant ⟨[], 0⟩ wUrl false none .noResponse 1
    (by simp [urlsUnique]) wUrl [("gclid", "abc")] (some "frag") (by decide)
    ⟨[], 0⟩ wSignals (.parsed wFields) wSummary rfl rfl none .noResponse 2
    ⟨"HTTPS", "Shop.COM", "/a", [], some "frag2"⟩ (by decide) (by decide)
    rfl rfl none .noResponse 3

theorem generate_artifacts_deterministic_witness :
    (generateArtifacts "2025-01-01 12:00 UTC" [wProduct]).1 =
      (generateArtifacts "2025-01-01 12:00 UTC" [wProduct]).1 ∧
    (generateArtifacts "2025-01-01 12:00 UTC" [wProduct]).2 =
      (generateArtifacts "2025-01-01 12:00 UTC" [wProduct]).2 ∧
    (generateArtifacts "2025-01-01 12:00 UTC" [wProduct]).2.map
        AgentMapEntry.title =
      [wProduct].map (fun p => p.summary.title) :=
  generate_artifacts_deterministic "2025-01-01 12:00 UTC" [wProduct] [wProduct]
    rfl

theorem concurrent_scrape_exactly_one_witness :
    (runRace wUrl wSignals wSummary 1 0 ⟨⟨[], 0⟩, false, .ready, .ready⟩
      []).store.countUrl wUrl ≤ 1 ∧
    ¬((runRace wUrl wSignals wSummary 1 0 ⟨⟨[], 0⟩, false, .ready, .ready⟩
        []).phaseA.isWorking = true ∧
      (runRace wUrl wSignals wSummary 1 0 ⟨⟨[], 0⟩, false, .ready, .ready⟩
        []).phaseB.isWorking = true) ∧
    (runRace wUrl wSignals wSummary 1 0 ⟨⟨[], 0⟩, false, .ready, .ready⟩
      [true, true, false]).store.countUrl wUrl = 1 :=
  concurrent_scrape_exactly_one wUrl wSignals wSummary 1 0 ⟨[], 0⟩ rfl
    [] [true, true, false] rfl rfl

end AgenticSitemap
